import Mathlib

/-!
# metacpp: SQL storable binding and result iteration

A shallow embedding of `src/db/sql/SqlStorable.h` (the `Storable<TObj>` template:
`primaryKey`, `getConstraint`, `numConstraints`, `fetchAll`, `insertAll`) and of
`src/sql/SqlResultIterator.cpp` (the cursor over an executed select), followed by
the properties proved of them. The id-scoped operations `whereId`, `updateOne` and
`removeOne`, which the header only declares, are modelled from the spec.

Conventions of the embedding:
* C++ objects that are shared through pointers (result-set data, the shared
  Storable, statements) live at addresses (`Nat`) of an explicit `World`;
  member functions that mutate take the world and return the new one.
* `m_rowId` is a C++ `int`. `operator_inc_int` is `operator ++` with the increment of
  the 32-bit two's-complement `int` (at the largest `int` the compiled code wraps
  to the smallest; the C++ standard leaves that case undefined). `operator_inc`
  takes the increment on the mathematical integers; the two agree as long as the
  incremented rowId is an `int` (`operator_inc_int_eq`).
* The driver behind `SqlTransaction::impl()` is external; it is a parameter
  (`SqlBackend`). Every call made to it is appended to a ghost log
  (`World.calls`), which is how "calls exactly once" is stated.
-/

namespace Metacpp

/-! ## Constraints and primary-key resolution (SqlStorable.h, lines 80-93) -/

/-- Modelled from the spec: the enumeration of constraint kinds is declared in
`SqlColumnConstraint.h`, which is not part of the sources at hand; the spec lists the
kinds PrimaryKey, ForeignKey, Unique, Index, NotNull, Default, Check. The code
only ever tests for `SqlConstraintTypePrimaryKey`. -/
inductive SqlConstraintType where
  | SqlConstraintTypePrimaryKey
  | SqlConstraintTypeForeignKey
  | SqlConstraintTypeUnique
  | SqlConstraintTypeIndex
  | SqlConstraintTypeNotNull
  | SqlConstraintTypeDefault
  | SqlConstraintTypeCheck
  deriving DecidableEq, Repr

/-- Modelled from the spec: a field descriptor (`MetaFieldBase`, declared in the
reflection headers that are not part of the sources at hand). Only its identity
matters here; it is identified by the field's name. -/
structure MetaFieldBase where
  name : String
  deriving DecidableEq, Repr

/-- Modelled from the spec: a registered constraint (`SqlConstraintBase`, declared in
`SqlColumnConstraint.h`, not part of the sources at hand) is a kind together with
its target field descriptor. `type` and `metaField` are the two accessors the
code calls. A registered constraint always has a target descriptor, so
`metaField` is not nullable. -/
structure SqlConstraintBase where
  type : SqlConstraintType
  metaField : MetaFieldBase
  deriving DecidableEq, Repr

/-- The template `Storable<TObj>`: the embedded domain object (base class `TObj`)
and the mutable cache `m_pkey` (`nullptr` is `none`). -/
structure Storable (TObj : Type) where
  record : TObj
  m_pkey : Option MetaFieldBase

/-- The constructors `Storable()` and `Storable(TObj& obj)`: both set `m_pkey(nullptr)`. -/
def Storable.new {TObj : Type} (obj : TObj) : Storable TObj :=
  { record := obj, m_pkey := none }

/-- Outcome of one call of `primaryKey()`: the returned pointer, the instance after
the call (`m_pkey` is `mutable`), and a ghost count of the entries of
`ms_constraints` whose `type()` was inspected by the call. -/
structure PrimaryKeyCall (TObj : Type) where
  result : Option MetaFieldBase
  self : Storable TObj
  inspected : Nat

/-- The loop `for (size_t i = 0; i < ms_constraints.size(); ++i)` of `primaryKey()`,
run on the entries not yet visited; `n` counts the entries inspected so far.
Falling out of the loop is `return nullptr` (the cache is left untouched). -/
def primaryKeyLoop {TObj : Type} (self : Storable TObj) :
    List SqlConstraintBase → Nat → PrimaryKeyCall TObj
  | [], n => { result := none, self := self, inspected := n }
  | c :: rest, n =>
    if c.type = SqlConstraintType.SqlConstraintTypePrimaryKey then
      { result := some c.metaField,
        self := { self with m_pkey := some c.metaField },
        inspected := n + 1 }
    else primaryKeyLoop self rest (n + 1)

/-- `Storable::primaryKey()`: `if (m_pkey) return m_pkey;` and otherwise the scan of
the static list `ms_constraints` of the type. -/
def Storable.primaryKey {TObj : Type} (ms_constraints : List SqlConstraintBase)
    (self : Storable TObj) : PrimaryKeyCall TObj :=
  match self.m_pkey with
  | some f => { result := some f, self := self, inspected := 0 }
  | none => primaryKeyLoop self ms_constraints 0

/-- The results of `n` successive calls of `primaryKey()` on one instance, in call order. -/
def primaryKeyCalls {TObj : Type} (ms_constraints : List SqlConstraintBase) :
    Nat → Storable TObj → List (Option MetaFieldBase)
  | 0, _ => []
  | n + 1, self =>
    (self.primaryKey ms_constraints).result ::
      primaryKeyCalls ms_constraints n (self.primaryKey ms_constraints).self

/-- Whether a constraint is of kind PrimaryKey. -/
def isPrimaryKey (c : SqlConstraintBase) : Bool :=
  decide (c.type = SqlConstraintType.SqlConstraintTypePrimaryKey)

/-! ## The world of shared objects and the external driver -/

/-- A call made to the driver, as recorded in the ghost log of the world: the
driver function and the handles (addresses) or the object it was given. -/
inductive DriverCall (TObj : Type) where
  | fetchNext (statement storable : Nat)
  | execPrepare (statement : Nat)
  | execStep (statement : Nat) (obj : TObj)
  deriving DecidableEq, Repr

/-- The fields of `SqlResultSetData` that the iterator reads: `m_statement` and
`m_storable`, both pointers (addresses). Its `m_transaction` is the one
transaction of the world. -/
structure SqlResultSetData where
  m_statement : Nat
  m_storable : Nat
  deriving DecidableEq, Repr

/-- The memory the code works in: the state `tx` of the transaction's driver
(type `τ`, external), the domain object held by the Storable at each address,
the `SqlResultSetData` at each address, and the ghost log of driver calls. -/
structure World (τ TObj : Type) where
  tx : τ
  storables : Nat → TObj
  sets : Nat → SqlResultSetData
  calls : List (DriverCall TObj)

/-- `SqlResultIterator`: the members `m_resultSet` (a pointer to `SqlResultSetData`,
here its address) and `m_rowId`. -/
structure SqlResultIterator where
  m_resultSet : Nat
  m_rowId : Int
  deriving DecidableEq, Repr

/-- The `SqlResultSet` handle returned by `exec`: the address of its `SqlResultSetData`. -/
structure SqlResultSet where
  m_data : Nat
  deriving DecidableEq, Repr

/-- The external collaborators that are not part of the sources at hand, taken as
parameters. `fetchNext` is the driver's `fetchNext(statement, storable)`: from the
driver state, the statement handle and the current contents of the storable it
gives the success flag, the new driver state and the new contents of the
storable. `execPrepare` and `execStep` are the two members of
`SqlStatementInsert` that `insertAll` calls; `exec` is
`storable.select().exec(transaction)` (with `none`) or
`storable.select().where(whereClause).exec(transaction)` (with `some whereClause`),
given the address of the storable; `size` is `SqlResultSet::size()` and `begin` is
`SqlResultSet::begin()`. An exception
thrown by a collaborator is not modelled: the code has no handler, a throw
abandons the caller as a whole. -/
structure SqlBackend (τ TObj Wh : Type) where
  fetchNext : τ → Nat → TObj → Bool × τ × TObj
  execPrepare : τ → Nat → τ
  execStep : τ → Nat → TObj → τ
  exec : Option Wh → Nat → World τ TObj → World τ TObj × SqlResultSet
  size : SqlResultSet → World τ TObj → Nat
  begin : SqlResultSet → World τ TObj → World τ TObj × SqlResultIterator

/-- Overwrite one address of a memory map. -/
def store {β : Type} (m : Nat → β) (a : Nat) (v : β) : Nat → β :=
  fun x => if x = a then v else m x

/-! ## SqlResultIterator.cpp -/

/-- The constructor `SqlResultIterator(SqlResultSetData *resultSet, int rowId)`. -/
def SqlResultIterator.new (resultSet : Nat) (rowId : Int) : SqlResultIterator :=
  { m_resultSet := resultSet, m_rowId := rowId }

/-- The member `operator ==`: `m_resultSet == rhs.m_resultSet && m_rowId == rhs.m_rowId`. -/
def SqlResultIterator.operator_eq (self rhs : SqlResultIterator) : Bool :=
  decide (self.m_resultSet = rhs.m_resultSet) && decide (self.m_rowId = rhs.m_rowId)

/-- The member `operator !=`: `!(*this == rhs)`. -/
def SqlResultIterator.operator_ne (self rhs : SqlResultIterator) : Bool :=
  !(self.operator_eq rhs)

/-- The only error a dereference could report. -/
inductive IteratorError where
  | pastTheEnd
  deriving DecidableEq, Repr

/-- The member `operator*`: `return m_resultSet->m_storable->record();`. `record()` of
`Storable` is `return this;`, so the handle is the address of the shared
Storable. The result type has an error alternative only so that "raises an
error" can be stated; the body produces none. -/
def SqlResultIterator.operator_deref {τ TObj : Type} (self : SqlResultIterator)
    (w : World τ TObj) : Except IteratorError Nat :=
  Except.ok (w.sets self.m_resultSet).m_storable

/-- The member `operator->`, with the same body as `operator*`. -/
def SqlResultIterator.operator_arrow {τ TObj : Type} (self : SqlResultIterator)
    (w : World τ TObj) : Except IteratorError Nat :=
  Except.ok (w.sets self.m_resultSet).m_storable

/-- The member `fetchNext`: one call of the driver's `fetchNext` on the statement and
the storable of the iterator's result set. The driver writes the row into the
storable in place. -/
def SqlResultIterator.fetchNext {τ TObj Wh : Type} (drv : SqlBackend τ TObj Wh)
    (self : SqlResultIterator) (w : World τ TObj) : Bool × World τ TObj :=
  let d := w.sets self.m_resultSet
  let r := drv.fetchNext w.tx d.m_statement (w.storables d.m_storable)
  (r.1,
   { w with
     tx := r.2.1
     storables := store w.storables d.m_storable r.2.2
     calls := w.calls ++ [DriverCall.fetchNext d.m_statement d.m_storable] })

/-- The member `operator ++`: `if (fetchNext()) m_rowId++; else m_rowId = ROW_ID_PAST_THE_END;`,
with the increment taken on the mathematical integers: this is the member as long
as `m_rowId + 1` is an `int` (see `operator_inc_int` for the `int` itself).
The constant `ROW_ID_PAST_THE_END` is declared in `SqlResultIterator.h`, which is not
part of the sources at hand; it is the parameter `pte`. -/
def SqlResultIterator.operator_inc {τ TObj Wh : Type} (drv : SqlBackend τ TObj Wh)
    (pte : Int) (self : SqlResultIterator) (w : World τ TObj) :
    World τ TObj × SqlResultIterator :=
  let r := self.fetchNext drv w
  if r.1 then (r.2, { self with m_rowId := self.m_rowId + 1 })
  else (r.2, { self with m_rowId := pte })

/-- The state after `n` successive advances (`operator ++`) of an iterator. -/
def advance {τ TObj Wh : Type} (drv : SqlBackend τ TObj Wh) (pte : Int) :
    Nat → World τ TObj × SqlResultIterator → World τ TObj × SqlResultIterator
  | 0, s => s
  | n + 1, s => advance drv pte n (SqlResultIterator.operator_inc drv pte s.2 s.1)

/-- The largest value of the 32-bit `int` that `m_rowId` is. -/
def INT_MAX : Int := 2147483647

/-- The smallest value of the 32-bit `int` that `m_rowId` is. -/
def INT_MIN : Int := -2147483648

/-- The `int` that holds the result `x` of an arithmetic operation on 32-bit
two's-complement integers: `x` itself when it is an `int`, and otherwise `x`
reduced modulo `2 ^ 32` into the range from `INT_MIN` to `INT_MAX`. -/
def wrapInt (x : Int) : Int :=
  (x + 2147483648) % 4294967296 - 2147483648

/-- The member `operator ++`: `if (fetchNext()) m_rowId++; else m_rowId = ROW_ID_PAST_THE_END;`,
on the 32-bit `int` that `m_rowId` is: `m_rowId++` at `INT_MAX` gives `INT_MIN`. -/
def SqlResultIterator.operator_inc_int {τ TObj Wh : Type} (drv : SqlBackend τ TObj Wh)
    (pte : Int) (self : SqlResultIterator) (w : World τ TObj) :
    World τ TObj × SqlResultIterator :=
  let r := self.fetchNext drv w
  if r.1 then (r.2, { self with m_rowId := wrapInt (self.m_rowId + 1) })
  else (r.2, { self with m_rowId := pte })

/-- The state after `n` successive advances by `operator_inc_int`. -/
def advance_int {τ TObj Wh : Type} (drv : SqlBackend τ TObj Wh) (pte : Int) :
    Nat → World τ TObj × SqlResultIterator → World τ TObj × SqlResultIterator
  | 0, s => s
  | n + 1, s => advance_int drv pte n (SqlResultIterator.operator_inc_int drv pte s.2 s.1)

/-- Modelled from the spec: `SqlResultSet::end()` (declared in `SqlResultSet.h`, not part
of the sources at hand) is the PAST_THE_END sentinel iterator of the result set. -/
def SqlResultSet.end_ (pte : Int) (set : SqlResultSet) : SqlResultIterator :=
  SqlResultIterator.new set.m_data pte

/-! ## The generic operations of `Storable<TObj>` (SqlStorable.h, lines 111-151) -/

/-- Modelled from the spec: the container `Array<T>` (declared in the container headers
that are not part of the sources at hand) is a sequence; `reserve` pre-sizes it
and `push_back` appends a copy. `capacity` is the pre-sized room, kept so that
a call of `reserve` is observable. -/
structure MetaArray (T : Type) where
  elems : List T
  capacity : Nat
  deriving DecidableEq, Repr

/-- The default-constructed `Array<TObj> result;`. -/
def MetaArray.empty {T : Type} : MetaArray T :=
  { elems := [], capacity := 0 }

/-- The member `reserve(size)`: room for at least `size` elements, the elements unchanged. -/
def MetaArray.reserve {T : Type} (a : MetaArray T) (size : Nat) : MetaArray T :=
  { a with capacity := max a.capacity size }

/-- The member `push_back(x)`: appends a copy of `x`. -/
def MetaArray.push_back {T : Type} (a : MetaArray T) (x : T) : MetaArray T :=
  { elems := a.elems ++ [x], capacity := max a.capacity (a.elems.length + 1) }

/-- The value `std::numeric_limits<size_t>::max()` for a 64-bit `size_t`. -/
def SIZE_MAX : Nat := 2 ^ 64 - 1

/-- The range-for `for (auto row : set) { (void)row; result.push_back(storable); }`, that is
`for (; it != end; ++it) { auto row = *it; result.push_back(storable); }`, where
`storable` is the local Storable of `fetchAll`, at address `storable`. The copy
`row` is discarded. `none` is for a run that has not finished within `fuel`
iterations. -/
def fetchAllLoop {τ TObj Wh : Type} (drv : SqlBackend τ TObj Wh) (pte : Int)
    (storable : Nat) (last : SqlResultIterator) :
    Nat → World τ TObj → SqlResultIterator → MetaArray TObj →
      Option (World τ TObj × MetaArray TObj)
  | 0, _, _, _ => none
  | fuel + 1, w, it, result =>
    if it.operator_ne last then
      let result1 := result.push_back (w.storables storable)
      let r := it.operator_inc drv pte w
      fetchAllLoop drv pte storable last fuel r.1 r.2 result1
    else some (w, result)

/-- The common shape of the two overloads of `fetchAll` below, which differ only in the
select they execute (`none` for `select()`, `some whereClause` for
`select().where(whereClause)`); it serves to reason about both at once. -/
def fetchAllBody {τ TObj Wh : Type} [Inhabited TObj] (drv : SqlBackend τ TObj Wh)
    (pte : Int) (whereClause : Option Wh) (fuel : Nat) (storable : Nat)
    (w : World τ TObj) : Option (World τ TObj × MetaArray TObj) :=
  let result : MetaArray TObj := MetaArray.empty
  let w1 := { w with storables := store w.storables storable default }
  let opened := drv.exec whereClause storable w1
  let set := opened.2
  let size := drv.size set opened.1
  let result1 := if size ≠ SIZE_MAX then result.reserve size else result
  let b := drv.begin set opened.1
  fetchAllLoop drv pte storable (set.end_ pte) fuel b.1 b.2 result1

/-- The static member `fetchAll(SqlTransaction& transaction)`: the local
`Storable<TObj> storable;` is default-constructed at address `storable`,
`storable.select().exec(transaction)` gives the result set, `result` is pre-sized
unless `size()` is the maximum of `size_t`, and the range-for fills it. -/
def Storable.fetchAll {τ TObj Wh : Type} [Inhabited TObj] (drv : SqlBackend τ TObj Wh)
    (pte : Int) (fuel : Nat) (storable : Nat) (w : World τ TObj) :
    Option (World τ TObj × MetaArray TObj) :=
  let result : MetaArray TObj := MetaArray.empty
  let w1 := { w with storables := store w.storables storable default }
  let opened := drv.exec none storable w1
  let set := opened.2
  let size := drv.size set opened.1
  let result1 := if size ≠ SIZE_MAX then result.reserve size else result
  let b := drv.begin set opened.1
  fetchAllLoop drv pte storable (set.end_ pte) fuel b.1 b.2 result1

/-- The static member `fetchAll(SqlTransaction& transaction, const ExpressionNodeWhereClause& whereClause)`:
as above, on the result set of `storable.select().where(whereClause).exec(transaction)`. -/
def Storable.fetchAllWhere {τ TObj Wh : Type} [Inhabited TObj] (drv : SqlBackend τ TObj Wh)
    (pte : Int) (whereClause : Wh) (fuel : Nat) (storable : Nat) (w : World τ TObj) :
    Option (World τ TObj × MetaArray TObj) :=
  let result : MetaArray TObj := MetaArray.empty
  let w1 := { w with storables := store w.storables storable default }
  let opened := drv.exec (some whereClause) storable w1
  let set := opened.2
  let size := drv.size set opened.1
  let result1 := if size ≠ SIZE_MAX then result.reserve size else result
  let b := drv.begin set opened.1
  fetchAllLoop drv pte storable (set.end_ pte) fuel b.1 b.2 result1

/-- The call `statement.execPrepare(transaction)` on the statement at address `statement`. -/
def execPrepare {τ TObj Wh : Type} (drv : SqlBackend τ TObj Wh) (statement : Nat)
    (w : World τ TObj) : World τ TObj :=
  { w with
    tx := drv.execPrepare w.tx statement
    calls := w.calls ++ [DriverCall.execPrepare statement] }

/-- The call `statement.execStep(transaction, &obj)` on the statement at address `statement`. -/
def execStep {τ TObj Wh : Type} (drv : SqlBackend τ TObj Wh) (statement : Nat)
    (w : World τ TObj) (obj : TObj) : World τ TObj :=
  { w with
    tx := drv.execStep w.tx statement obj
    calls := w.calls ++ [DriverCall.execStep statement obj] }

/-- The static member `insertAll(SqlTransaction& transaction, const Array<TObj> objects)`: the
local `Storable<TObj> storable;` at address `storable`, the one local
`SqlStatementInsert statement(&storable);` at address `statement`, its
`execPrepare`, then `for (auto& obj : objects) statement.execStep(transaction, &obj);`. -/
def Storable.insertAll {τ TObj Wh : Type} [Inhabited TObj] (drv : SqlBackend τ TObj Wh)
    (storable statement : Nat) (objects : List TObj) (w : World τ TObj) : World τ TObj :=
  let w1 := { w with storables := store w.storables storable default }
  let w2 := execPrepare drv statement w1
  objects.foldl (execStep drv statement) w2

/-! ## Behaviour of the driver, as seen from the iterator -/

/-- Whether the driver's `fetchNext` on statement `statement`, started in driver state
`t` with storable contents `b`, succeeds exactly `k` times in a row and then
fails. -/
def succeedsThenFails {τ TObj Wh : Type} (drv : SqlBackend τ TObj Wh) (statement : Nat) :
    Nat → τ → TObj → Bool
  | 0, t, b => !(drv.fetchNext t statement b).1
  | k + 1, t, b =>
    (drv.fetchNext t statement b).1 &&
      succeedsThenFails drv statement k (drv.fetchNext t statement b).2.1
        (drv.fetchNext t statement b).2.2

/-- The same, for the result set at address `rs` of a world. -/
def World.succeedsThenFails {τ TObj Wh : Type} (drv : SqlBackend τ TObj Wh)
    (w : World τ TObj) (rs : Nat) (k : Nat) : Bool :=
  Metacpp.succeedsThenFails drv (w.sets rs).m_statement k w.tx
    (w.storables (w.sets rs).m_storable)

/-- State of the in-memory driver: the rows of the table and the rows the open
cursor has not delivered yet. -/
structure MemTx where
  table : List Nat
  cursor : List Nat
  deriving DecidableEq, Repr

/-- The in-memory driver's `fetchNext`: delivers the next row of the cursor into the
storable, or fails when none is left. -/
def memFetchNext (t : MemTx) (_statement : Nat) (b : Nat) : Bool × MemTx × Nat :=
  match t.cursor with
  | [] => (false, t, b)
  | r :: rest => (true, { t with cursor := rest }, r)

/-- The in-memory driver's `exec` of a select: the result set data is placed at
address 1 with its statement at address 2, and the cursor is opened on the rows of
the table that satisfy the where clause. -/
def memExec (whereClause : Option (Nat → Bool)) (storable : Nat) (w : World MemTx Nat) :
    World MemTx Nat × SqlResultSet :=
  let rows := match whereClause with
    | none => w.tx.table
    | some p => w.tx.table.filter p
  ({ w with
     tx := { w.tx with cursor := rows }
     sets := store w.sets 1 { m_statement := 2, m_storable := storable } },
   { m_data := 1 })

/-- The in-memory driver's `begin()`: the opening fetch; row 0 when it delivers a row,
the sentinel (here -1) when it does not. -/
def memBegin (set : SqlResultSet) (w : World MemTx Nat) :
    World MemTx Nat × SqlResultIterator :=
  let d := w.sets set.m_data
  let r := memFetchNext w.tx d.m_statement (w.storables d.m_storable)
  ({ w with tx := r.2.1, storables := store w.storables d.m_storable r.2.2 },
   SqlResultIterator.new set.m_data (if r.1 then 0 else -1))

/-- The in-memory driver. -/
def memBackend : SqlBackend MemTx Nat (Nat → Bool) where
  fetchNext := memFetchNext
  execPrepare := fun t _ => t
  execStep := fun t _ obj => { t with table := t.table ++ [obj] }
  exec := memExec
  size := fun _ w => w.tx.cursor.length
  begin := memBegin

/-- A world of the in-memory driver: the given table and open cursor, every storable
holding 0, every result-set address holding statement 2 and storable 3. -/
def memWorld (table cursor : List Nat) : World MemTx Nat where
  tx := { table := table, cursor := cursor }
  storables := fun _ => 0
  sets := fun _ => { m_statement := 2, m_storable := 3 }
  calls := []

/-- A driver whose `fetchNext` follows a script: each call consumes the next outcome
of the list (`true` succeeds, `false` fails) and leaves the storable alone; once
the script is used up every call fails. -/
def scriptFetchNext (t : List Bool) (_statement : Nat) (b : Nat) : Bool × List Bool × Nat :=
  match t with
  | [] => (false, [], b)
  | ok :: rest => (ok, rest, b)

/-- The scripted driver; only its `fetchNext` matters. -/
def scriptBackend : SqlBackend (List Bool) Nat Unit where
  fetchNext := scriptFetchNext
  execPrepare := fun t _ => t
  execStep := fun t _ _ => t
  exec := fun _ _ w => (w, { m_data := 1 })
  size := fun _ _ => SIZE_MAX
  begin := fun set w => (w, SqlResultIterator.new set.m_data 0)

/-- A world of the scripted driver: the given script, every storable holding 0, every
result-set address holding statement 2 and storable 3. -/
def scriptWorld (script : List Bool) : World (List Bool) Nat where
  tx := script
  storables := fun _ => 0
  sets := fun _ => { m_statement := 2, m_storable := 3 }
  calls := []

/-- A driver whose `fetchNext` delivers as many rows as its state counts and then
fails; it leaves the storable alone. -/
def countdownFetchNext (t : Nat) (_statement : Nat) (b : Nat) : Bool × Nat × Nat :=
  if t = 0 then (false, 0, b) else (true, t - 1, b)

/-- The counting driver; only its `fetchNext` matters. -/
def countdownBackend : SqlBackend Nat Nat Unit where
  fetchNext := countdownFetchNext
  execPrepare := fun t _ => t
  execStep := fun t _ _ => t
  exec := fun _ _ w => (w, { m_data := 1 })
  size := fun _ _ => SIZE_MAX
  begin := fun set w => (w, SqlResultIterator.new set.m_data 0)

/-- A world of the counting driver with `rows` rows left to deliver, every storable
holding 0, every result-set address holding statement 2 and storable 3. -/
def countdownWorld (rows : Nat) : World Nat Nat where
  tx := rows
  storables := fun _ => 0
  sets := fun _ => { m_statement := 2, m_storable := 3 }
  calls := []

/-! ## The constraint accessors (SqlStorable.h, lines 95-103) -/

/-- The static member `numConstraints()`: `return ms_constraints.size();`. -/
def Storable.numConstraints (ms_constraints : List SqlConstraintBase) : Nat :=
  ms_constraints.length

/-- The only error a subscript could report. -/
inductive ArrayError where
  | outOfRange
  deriving DecidableEq, Repr

/-- The static member `getConstraint(size_t i)`: `return ms_constraints[i];`. The subscript
operator of `Array` is declared in the container headers, which are not part of
the sources at hand; it is the parameter `subscript` (see `arraySubscript`). The
body adds nothing to it. -/
def Storable.getConstraint
    (subscript : List SqlConstraintBase → Nat → Except ArrayError SqlConstraintBase)
    (ms_constraints : List SqlConstraintBase) (i : Nat) :
    Except ArrayError SqlConstraintBase :=
  subscript ms_constraints i

/-- Modelled from the spec: the subscript operator of `Array`, declared in the container
headers that are not part of the sources at hand, as `getConstraint` uses it.
The spec gives `getConstraint(i) -> Constraint (bounds-checked)`: within the array
the element at `i`, past its end an out-of-range error. -/
def arraySubscript (a : List SqlConstraintBase) (i : Nat) :
    Except ArrayError SqlConstraintBase :=
  match a[i]? with
  | some c => Except.ok c
  | none => Except.error ArrayError.outOfRange

/-- The ghost counts of inspected entries of `n` successive calls of `primaryKey()` on
one instance, in call order. -/
def primaryKeyInspections {TObj : Type} (ms_constraints : List SqlConstraintBase) :
    Nat → Storable TObj → List Nat
  | 0, _ => []
  | n + 1, self =>
    (self.primaryKey ms_constraints).inspected ::
      primaryKeyInspections ms_constraints n (self.primaryKey ms_constraints).self

/-! ## The id-scoped one-shot operations (declared in SqlStorable.h, lines 52-62) -/

/-- Modelled from the spec: the error kinds of the error-handling design (section 7):
DriverError, NoPrimaryKeyDeclared, UnsupportedConstraint. -/
inductive StorableError where
  | DriverError
  | NoPrimaryKeyDeclared
  | UnsupportedConstraint
  deriving DecidableEq, Repr

/-- Modelled from the spec: the equality predicate generated by `whereId()`, which
restricts rows to the current instance's primary-key value: the primary-key
field and the instance whose value of that field the rows must have. -/
structure WhereId (TObj : Type) where
  field : MetaFieldBase
  record : TObj

/-- The two id-scoped statements. -/
inductive OneShotKind where
  | update
  | remove
  deriving DecidableEq, Repr

/-- Modelled from the spec: a statement built by `update()` or `remove()` as handed to the
transaction: its kind, its where clause (`none` would be an unconstrained
statement) and the record it is built for. -/
structure OneShotStatement (TObj : Type) where
  kind : OneShotKind
  filter : Option (WhereId TObj)
  record : TObj

/-- Modelled from the spec: `SqlStorable::whereId()` is only declared in `SqlStorable.h`
(line 62); its body is not part of the sources at hand. Spec 4.2: the equality
predicate on the primary key of the current instance; "building this predicate
when no primary key is resolvable must fail fast with a dedicated error, not
silently omit the filter". The primary key is resolved by `primaryKey()`, whose
instance after the call is returned along. -/
def SqlStorable.whereId {TObj : Type} (ms_constraints : List SqlConstraintBase)
    (self : Storable TObj) : Except StorableError (WhereId TObj) × Storable TObj :=
  let call := self.primaryKey ms_constraints
  match call.result with
  | none => (Except.error StorableError.NoPrimaryKeyDeclared, call.self)
  | some f => (Except.ok { field := f, record := call.self.record }, call.self)

/-- Outcome of a one-shot operation: the error raised or the boolean returned, the
instance and the driver state afterwards, and the ghost list of the statements
that were handed to the transaction. -/
structure OneShotResult (τ TObj : Type) where
  outcome : Except StorableError Bool
  self : Storable TObj
  tx : τ
  executed : List (OneShotStatement TObj)

/-- Modelled from the spec: the shape shared by `updateOne` and `removeOne` below, whose
bodies are not part of the sources at hand: the statement of the given
kind is restricted by `whereId()` and executed by the transaction
(`execStatement`, external), whose success flag is returned; an error of
`whereId()` is raised before anything is built or executed. -/
def oneShot {τ TObj : Type} (kind : OneShotKind)
    (execStatement : τ → OneShotStatement TObj → Bool × τ)
    (ms_constraints : List SqlConstraintBase) (self : Storable TObj) (tx : τ) :
    OneShotResult τ TObj :=
  match SqlStorable.whereId ms_constraints self with
  | (Except.error e, self1) =>
    { outcome := Except.error e, self := self1, tx := tx, executed := [] }
  | (Except.ok p, self1) =>
    { outcome := Except.ok
        (execStatement tx { kind := kind, filter := some p, record := self1.record }).1
      self := self1
      tx := (execStatement tx { kind := kind, filter := some p, record := self1.record }).2
      executed := [{ kind := kind, filter := some p, record := self1.record }] }

/-- Modelled from the spec: `SqlStorable::updateOne(transaction)` is only declared in
`SqlStorable.h` (line 55); its body is not part of the sources at hand. Spec 4.2:
a one-shot operation returning success or failure as a boolean, on the statement
of `update()` restricted to the current instance by `whereId()`. -/
def SqlStorable.updateOne {τ TObj : Type}
    (execStatement : τ → OneShotStatement TObj → Bool × τ)
    (ms_constraints : List SqlConstraintBase) (self : Storable TObj) (tx : τ) :
    OneShotResult τ TObj :=
  oneShot OneShotKind.update execStatement ms_constraints self tx

/-- Modelled from the spec: `SqlStorable::removeOne(transaction)` is only declared in
`SqlStorable.h` (line 57); its body is not part of the sources at hand. Spec 4.2:
a one-shot operation returning success or failure as a boolean, on the statement
of `remove()` restricted to the current instance by `whereId()`. -/
def SqlStorable.removeOne {τ TObj : Type}
    (execStatement : τ → OneShotStatement TObj → Bool × τ)
    (ms_constraints : List SqlConstraintBase) (self : Storable TObj) (tx : τ) :
    OneShotResult τ TObj :=
  oneShot OneShotKind.remove execStatement ms_constraints self tx

/-! ## Properties -/

/-! ### Primary-key resolution -/

lemma primaryKeyLoop_result {TObj : Type} (self : Storable TObj)
    (cs : List SqlConstraintBase) (n : Nat) :
    (primaryKeyLoop self cs n).result = (cs.find? isPrimaryKey).map (fun c => c.metaField) := by
  induction cs generalizing n with
  | nil => rfl
  | cons c rest ih =>
    by_cases h : c.type = SqlConstraintType.SqlConstraintTypePrimaryKey
    · simp [primaryKeyLoop, isPrimaryKey, h]
    · simp [primaryKeyLoop, isPrimaryKey, h, ih]

lemma primaryKeyLoop_self {TObj : Type} (self : Storable TObj)
    (cs : List SqlConstraintBase) (n : Nat) :
    (primaryKeyLoop self cs n).self.m_pkey = (primaryKeyLoop self cs n).result
      ∨ ((primaryKeyLoop self cs n).result = none
          ∧ (primaryKeyLoop self cs n).self = self) := by
  induction cs generalizing n with
  | nil => right; exact ⟨rfl, rfl⟩
  | cons c rest ih =>
    by_cases h : c.type = SqlConstraintType.SqlConstraintTypePrimaryKey
    · left; simp [primaryKeyLoop, h]
    · simpa [primaryKeyLoop, h] using ih (n + 1)

lemma find_isPrimaryKey_of_filter {cs : List SqlConstraintBase} {pk : SqlConstraintBase}
    (h : cs.filter isPrimaryKey = [pk]) : cs.find? isPrimaryKey = some pk := by
  induction cs with
  | nil => simp at h
  | cons c rest ih =>
    by_cases hc : isPrimaryKey c = true
    · simp [List.filter_cons, hc] at h
      obtain ⟨h1, _⟩ := h
      subst h1
      simp [List.find?_cons, hc]
    · simp [List.filter_cons, hc] at h
      simp [List.find?_cons, hc, ih h]

/-- C1. On a fresh instance, `primaryKey()` returns the `metaField` of the first
constraint of the list, in list order, whose type is PrimaryKey; and it returns
`nullptr` exactly when the list has no constraint of type PrimaryKey. -/
theorem primaryKey_fresh_first {TObj : Type} (ms_constraints : List SqlConstraintBase)
    (obj : TObj) :
    ((Storable.new obj).primaryKey ms_constraints).result
        = (ms_constraints.find? isPrimaryKey).map (fun c => c.metaField)
      ∧ (((Storable.new obj).primaryKey ms_constraints).result = none
          ↔ ∀ c ∈ ms_constraints, c.type ≠ SqlConstraintType.SqlConstraintTypePrimaryKey) := by
  have hres : ((Storable.new obj).primaryKey ms_constraints).result
      = (ms_constraints.find? isPrimaryKey).map (fun c => c.metaField) := by
    simp [Storable.primaryKey, Storable.new, primaryKeyLoop_result]
  refine ⟨hres, ?_⟩
  rw [hres]
  simp [isPrimaryKey]

lemma primaryKeyCalls_cached {TObj : Type} (cs : List SqlConstraintBase)
    (f : MetaFieldBase) (n : Nat) (self : Storable TObj) (h : self.m_pkey = some f) :
    primaryKeyCalls cs n self = List.replicate n (some f) := by
  induction n generalizing self with
  | zero => rfl
  | succ n ih =>
    have h1 : self.primaryKey cs = { result := some f, self := self, inspected := 0 } := by
      simp [Storable.primaryKey, h]
    simp [primaryKeyCalls, h1, List.replicate_succ, ih self h]

/-- C2. When the constraint list of the type holds exactly one PrimaryKey constraint
`pk`, every one of any number `n` of successive calls of `primaryKey()` on an
instance returns the field of `pk`: each repeated call returns what the first
call returned. -/
theorem primaryKey_unique_idempotent {TObj : Type} (ms_constraints : List SqlConstraintBase)
    (pk : SqlConstraintBase) (obj : TObj) (n : Nat)
    (h : ms_constraints.filter isPrimaryKey = [pk]) :
    primaryKeyCalls ms_constraints n (Storable.new obj)
      = List.replicate n (some pk.metaField) := by
  cases n with
  | zero => rfl
  | succ n =>
    have hres : ((Storable.new obj).primaryKey ms_constraints).result = some pk.metaField := by
      simp [Storable.primaryKey, Storable.new, primaryKeyLoop_result,
        find_isPrimaryKey_of_filter h]
    have hself : ((Storable.new obj).primaryKey ms_constraints).self.m_pkey
        = some pk.metaField := by
      have := primaryKeyLoop_self (Storable.new obj) ms_constraints 0
      simp only [Storable.primaryKey, Storable.new] at hres ⊢
      simp only [Storable.new] at this
      rcases this with h1 | h1
      · rw [h1, hres]
      · rw [h1.1] at hres; cases hres
    simp [primaryKeyCalls, hres, List.replicate_succ,
      primaryKeyCalls_cached ms_constraints pk.metaField n _ hself]

/-- Witness of C2 on the list (Unique a, PrimaryKey id, Index b), three calls. -/
theorem primaryKey_unique_idempotent_witness :
    primaryKeyCalls
        [{ type := SqlConstraintType.SqlConstraintTypeUnique, metaField := { name := "a" } },
         { type := SqlConstraintType.SqlConstraintTypePrimaryKey, metaField := { name := "id" } },
         { type := SqlConstraintType.SqlConstraintTypeIndex, metaField := { name := "b" } }]
        3 (Storable.new ())
      = List.replicate 3 (some { name := "id" }) :=
  primaryKey_unique_idempotent _
    { type := SqlConstraintType.SqlConstraintTypePrimaryKey, metaField := { name := "id" } }
    () 3 (by decide)

/-! ### Iterator equality -/

/-- C3. `a == b` holds exactly when the two iterators reference the same result set
and have the same rowId (whatever that rowId is, the sentinel included), and
`a != b` is the negation of `a == b`. -/
theorem operator_eq_iff_same_set_and_row (a b : SqlResultIterator) :
    (a.operator_eq b = true ↔ a.m_resultSet = b.m_resultSet ∧ a.m_rowId = b.m_rowId)
      ∧ a.operator_ne b = !(a.operator_eq b) := by
  constructor
  · simp [SqlResultIterator.operator_eq]
  · rfl

/-! ### Advancing -/

lemma store_same {β : Type} (m : Nat → β) (a : Nat) (v : β) : store m a v a = v := by
  simp [store]

lemma operator_inc_of_succeeds {τ TObj Wh : Type} (drv : SqlBackend τ TObj Wh) (pte : Int)
    (w : World τ TObj) (rs : Nat) (r : Int) (k : Nat)
    (h : w.succeedsThenFails drv rs (k + 1) = true) :
    ((SqlResultIterator.new rs r).operator_inc drv pte w).2 = SqlResultIterator.new rs (r + 1)
      ∧ ((SqlResultIterator.new rs r).operator_inc drv pte w).1.succeedsThenFails drv rs k
          = true
      ∧ (SqlResultIterator.fetchNext drv (SqlResultIterator.new rs r) w).1 = true := by
  simp only [World.succeedsThenFails, succeedsThenFails, Bool.and_eq_true] at h
  simp only [SqlResultIterator.operator_inc, SqlResultIterator.fetchNext,
    SqlResultIterator.new, World.succeedsThenFails, h.1, if_true, store_same]
  exact ⟨trivial, h.2, trivial⟩

lemma operator_inc_of_fails {τ TObj Wh : Type} (drv : SqlBackend τ TObj Wh) (pte : Int)
    (w : World τ TObj) (rs : Nat) (r : Int)
    (h : w.succeedsThenFails drv rs 0 = true) :
    ((SqlResultIterator.new rs r).operator_inc drv pte w).2 = SqlResultIterator.new rs pte
      ∧ (SqlResultIterator.fetchNext drv (SqlResultIterator.new rs r) w).1 = false := by
  simp only [World.succeedsThenFails, succeedsThenFails, Bool.not_eq_true'] at h
  simp [SqlResultIterator.operator_inc, SqlResultIterator.fetchNext,
    SqlResultIterator.new, h]

lemma advance_of_succeeds {τ TObj Wh : Type} (drv : SqlBackend τ TObj Wh) (pte : Int)
    (rs : Nat) (j : Nat) :
    ∀ (k : Nat) (w : World τ TObj) (r : Int), w.succeedsThenFails drv rs (j + k) = true →
      (advance drv pte j (w, SqlResultIterator.new rs r)).2 = SqlResultIterator.new rs (r + j)
        ∧ (advance drv pte j (w, SqlResultIterator.new rs r)).1.succeedsThenFails drv rs k
            = true := by
  induction j with
  | zero =>
    intro k w r h
    simpa [advance] using h
  | succ j ih =>
    intro k w r h
    have h1 : w.succeedsThenFails drv rs ((j + k) + 1) = true := by
      rw [← h]; congr 1; omega
    obtain ⟨e1, e2, _⟩ := operator_inc_of_succeeds drv pte w rs r (j + k) h1
    have e3 : (SqlResultIterator.new rs r).operator_inc drv pte w
        = (((SqlResultIterator.new rs r).operator_inc drv pte w).1,
            SqlResultIterator.new rs (r + 1)) := by
      rw [← e1]
    have := ih k _ (r + 1) e2
    simp only [advance]
    rw [e3]
    refine ⟨?_, this.2⟩
    rw [this.1]
    simp only [SqlResultIterator.new, SqlResultIterator.mk.injEq, true_and]
    push_cast
    ring

/-- On the mathematical integers: if the driver's `fetchNext` for a result set succeeds
`k` times and then fails, then after `j` advances from ACTIVE(0), for every `j` up
to `k`, the iterator is ACTIVE(j) and the fetch of the next advance succeeds
exactly when `j < k`; after `k + 1` advances the iterator compares equal to the
sentinel; with a negative sentinel no iterator before that does. -/
lemma advance_ideal_to_past_the_end {τ TObj Wh : Type} (drv : SqlBackend τ TObj Wh) (pte : Int)
    (w : World τ TObj) (set : SqlResultSet) (k : Nat)
    (h : w.succeedsThenFails drv set.m_data k = true) :
    (∀ j, j ≤ k →
        (advance drv pte j (w, SqlResultIterator.new set.m_data 0)).2
            = SqlResultIterator.new set.m_data j
          ∧ (SqlResultIterator.fetchNext drv
                (advance drv pte j (w, SqlResultIterator.new set.m_data 0)).2
                (advance drv pte j (w, SqlResultIterator.new set.m_data 0)).1).1
              = decide (j < k))
      ∧ (advance drv pte (k + 1) (w, SqlResultIterator.new set.m_data 0)).2.operator_eq
          (set.end_ pte) = true
      ∧ (pte < 0 → ∀ j, j ≤ k →
          (advance drv pte j (w, SqlResultIterator.new set.m_data 0)).2.operator_ne
            (set.end_ pte) = true) := by
  have key : ∀ j, j ≤ k →
      (advance drv pte j (w, SqlResultIterator.new set.m_data 0)).2
          = SqlResultIterator.new set.m_data j
        ∧ (advance drv pte j (w, SqlResultIterator.new set.m_data 0)).1.succeedsThenFails
            drv set.m_data (k - j) = true := by
    intro j hj
    have h1 : w.succeedsThenFails drv set.m_data (j + (k - j)) = true := by
      rw [← h]; congr 1; omega
    have := advance_of_succeeds drv pte set.m_data j (k - j) w 0 h1
    simpa using this
  refine ⟨?_, ?_, ?_⟩
  · intro j hj
    obtain ⟨e1, e2⟩ := key j hj
    refine ⟨e1, ?_⟩
    rw [e1]
    rcases Nat.lt_or_ge j k with hlt | hge
    · have e3 : (advance drv pte j (w, SqlResultIterator.new set.m_data 0)).1.succeedsThenFails
          drv set.m_data ((k - j - 1) + 1) = true := by
        rw [← e2]; congr 1; omega
      have := (operator_inc_of_succeeds drv pte _ set.m_data j (k - j - 1) e3).2.2
      simp [this, hlt]
    · have e3 : (advance drv pte j (w, SqlResultIterator.new set.m_data 0)).1.succeedsThenFails
          drv set.m_data 0 = true := by
        rw [← e2]; congr 1; omega
      have := (operator_inc_of_fails drv pte _ set.m_data j e3).2
      simp [this]; omega
  · obtain ⟨e1, e2⟩ := key k (le_refl k)
    have e3 : (advance drv pte k (w, SqlResultIterator.new set.m_data 0)).1.succeedsThenFails
        drv set.m_data 0 = true := by
      rw [← e2]; congr 1; omega
    have hk : advance drv pte (k + 1) (w, SqlResultIterator.new set.m_data 0)
        = SqlResultIterator.operator_inc drv pte
            (advance drv pte k (w, SqlResultIterator.new set.m_data 0)).2
            (advance drv pte k (w, SqlResultIterator.new set.m_data 0)).1 := by
      clear e1 e2 e3 key h
      generalize (w, SqlResultIterator.new set.m_data 0) = s
      induction k generalizing s with
      | zero => rfl
      | succ k ih => exact ih _
    rw [hk, e1, (operator_inc_of_fails drv pte _ set.m_data k e3).1]
    simp [SqlResultIterator.operator_eq, SqlResultSet.end_, SqlResultIterator.new]
  · intro hp j hj
    rw [(key j hj).1]
    simp only [SqlResultIterator.operator_ne, SqlResultIterator.operator_eq,
      SqlResultSet.end_, SqlResultIterator.new, decide_True, Bool.true_and,
      Bool.not_eq_true', decide_eq_false_iff_not]
    omega

/-! ### Dereferencing -/

/-- C6, as stated, fails: dereferencing the PAST_THE_END sentinel iterator (sentinel
-1, result set at address 1 whose shared storable is at address 3) raises
nothing; both `operator*` and `operator->` return the handle 3. -/
theorem deref_past_the_end_returns_handle :
    (SqlResultSet.end_ (-1) { m_data := 1 }).operator_deref (memWorld [] [])
        = Except.ok 3
      ∧ (SqlResultSet.end_ (-1) { m_data := 1 }).operator_arrow (memWorld [] [])
        = Except.ok 3 :=
  ⟨rfl, rfl⟩

/-- C6, amended. `operator*` and `operator->` do not look at the rowId: on every
iterator, the sentinel included, they return the handle of the shared storable
of the iterator's result set, and never an error. -/
theorem deref_unchecked {τ TObj : Type} (pte : Int) (w : World τ TObj)
    (set : SqlResultSet) (rowId : Int) :
    (set.end_ pte).operator_deref w = Except.ok (w.sets set.m_data).m_storable
      ∧ (set.end_ pte).operator_arrow w = Except.ok (w.sets set.m_data).m_storable
      ∧ (SqlResultIterator.new set.m_data rowId).operator_deref w
          = (set.end_ pte).operator_deref w
      ∧ (SqlResultIterator.new set.m_data rowId).operator_arrow w
          = (set.end_ pte).operator_arrow w :=
  ⟨rfl, rfl, rfl, rfl⟩

/-! ### fetchAll -/

lemma fetchAllLoop_elems {τ TObj Wh : Type} (drv : SqlBackend τ TObj Wh)
    (pte : Int) (storable : Nat) (last : SqlResultIterator) (fuel : Nat) :
    ∀ (w : World τ TObj) (it : SqlResultIterator) (result result2 : MetaArray TObj),
      result.elems = result2.elems →
      (fetchAllLoop drv pte storable last fuel w it result).map (fun x => (x.1, x.2.elems))
        = (fetchAllLoop drv pte storable last fuel w it result2).map
            (fun x => (x.1, x.2.elems)) := by
  induction fuel with
  | zero => intro w it result result2 _; rfl
  | succ f ih =>
    intro w it result result2 h
    simp only [fetchAllLoop]
    split
    · exact ih _ _ _ _ (by simp [MetaArray.push_back, h])
    · simp [h]

lemma fetchAll_eq_fetchAllBody {τ TObj Wh : Type} [Inhabited TObj]
    (drv : SqlBackend τ TObj Wh) (pte : Int) (fuel storable : Nat) (w : World τ TObj) :
    Storable.fetchAll drv pte fuel storable w = fetchAllBody drv pte none fuel storable w :=
  rfl

lemma foldl_execStep {τ TObj Wh : Type} (drv : SqlBackend τ TObj Wh) (statement : Nat)
    (objects : List TObj) :
    ∀ w : World τ TObj,
      (objects.foldl (execStep drv statement) w).calls
          = w.calls ++ objects.map (DriverCall.execStep statement)
        ∧ (objects.foldl (execStep drv statement) w).tx
          = objects.foldl (fun t obj => drv.execStep t statement obj) w.tx := by
  induction objects with
  | nil => intro w; simp
  | cons o rest ih =>
    intro w
    obtain ⟨h1, h2⟩ := ih (execStep drv statement w o)
    simp only [List.foldl_cons, h1, h2]
    simp [execStep]

/-- C9. For every list of objects, the empty one included, the driver calls made by
`insertAll` are one `execPrepare` of its one statement followed by one `execStep`
per object on that same statement, the `i`-th step with the `i`-th object, in
input order, and nothing else; the driver state is the one these calls produce. -/
theorem insertAll_prepares_once_steps_each {τ TObj Wh : Type} [Inhabited TObj]
    (drv : SqlBackend τ TObj Wh) (storable statement : Nat) (objects : List TObj)
    (w : World τ TObj) :
    (Storable.insertAll drv storable statement objects w).calls
        = w.calls ++ DriverCall.execPrepare statement
            :: objects.map (DriverCall.execStep statement)
      ∧ ((Storable.insertAll drv storable statement objects w).calls.drop
            (w.calls.length + 1)).length = objects.length
      ∧ (Storable.insertAll drv storable statement objects w).tx
        = objects.foldl (fun t obj => drv.execStep t statement obj)
            (drv.execPrepare w.tx statement) := by
  have h := foldl_execStep drv statement objects
    (execPrepare drv statement { w with storables := store w.storables storable default })
  simp only [Storable.insertAll]
  refine ⟨?_, ?_, ?_⟩
  · rw [h.1]; simp [execPrepare]
  · rw [h.1]; simp [execPrepare]
  · rw [h.2]; simp [execPrepare]

/-! ### Round trip -/

lemma fetchAllLoop_congr {τ TObj Wh : Type} (drv drv2 : SqlBackend τ TObj Wh)
    (hf : drv2.fetchNext = drv.fetchNext) (pte : Int) (storable : Nat)
    (last : SqlResultIterator) (fuel : Nat) :
    ∀ (w : World τ TObj) (it : SqlResultIterator) (result : MetaArray TObj),
      fetchAllLoop drv2 pte storable last fuel w it result
        = fetchAllLoop drv pte storable last fuel w it result := by
  induction fuel with
  | zero => intro w it result; rfl
  | succ f ih =>
    intro w it result
    simp only [fetchAllLoop, SqlResultIterator.operator_inc, SqlResultIterator.fetchNext, hf, ih]

lemma fetchAllLoop_capacity {τ TObj Wh : Type} (drv : SqlBackend τ TObj Wh) (pte : Int)
    (storable : Nat) (last : SqlResultIterator) (fuel : Nat) :
    ∀ (w : World τ TObj) (it : SqlResultIterator) (result : MetaArray TObj)
      (res : World τ TObj × MetaArray TObj),
      result.elems.length ≤ result.capacity →
      fetchAllLoop drv pte storable last fuel w it result = some res →
      result.elems.length ≤ res.2.elems.length
        ∧ res.2.capacity = max result.capacity res.2.elems.length := by
  induction fuel with
  | zero => intro w it result res _ h; simp [fetchAllLoop] at h
  | succ f ih =>
    intro w it result res hc h
    simp only [fetchAllLoop] at h
    split at h
    · have := ih _ _ _ res (by simp [MetaArray.push_back]) h
      simp only [MetaArray.push_back, List.length_append, List.length_singleton] at this
      omega
    · simp only [Option.some.injEq] at h
      subst h
      simp only [le_refl, true_and]
      omega

/-- C10. What `size()` reports has no effect on what `fetchAll` returns: with the
reported size replaced by any other (`size2`, for instance the unknown-count
sentinel everywhere), either overload ends in the same world with the same
sequence, for every fuel. The reported size shows only in the room reserved:
with the sentinel the capacity is what the appended elements needed, with any
other value `reserve` made it at least that value. -/
theorem fetchAll_presizing_irrelevant {τ TObj Wh : Type} [Inhabited TObj]
    (drv : SqlBackend τ TObj Wh) (size2 : SqlResultSet → World τ TObj → Nat) (pte : Int)
    (whereClause : Wh) (fuel storable : Nat) (w : World τ TObj) :
    Option.map (fun x => (x.1, x.2.elems))
        (Storable.fetchAll { drv with size := size2 } pte fuel storable w)
      = Option.map (fun x => (x.1, x.2.elems)) (Storable.fetchAll drv pte fuel storable w)
    ∧ Option.map (fun x => (x.1, x.2.elems))
        (Storable.fetchAllWhere { drv with size := size2 } pte whereClause fuel storable w)
      = Option.map (fun x => (x.1, x.2.elems))
          (Storable.fetchAllWhere drv pte whereClause fuel storable w)
    ∧ Option.map (fun x => x.2.capacity) (Storable.fetchAll drv pte fuel storable w)
      = Option.map
          (fun x =>
            if drv.size
                  (drv.exec none storable
                    { w with storables := store w.storables storable default }).2
                  (drv.exec none storable
                    { w with storables := store w.storables storable default }).1 = SIZE_MAX
            then x.2.elems.length
            else max
              (drv.size
                  (drv.exec none storable
                    { w with storables := store w.storables storable default }).2
                  (drv.exec none storable
                    { w with storables := store w.storables storable default }).1)
              x.2.elems.length)
          (Storable.fetchAll drv pte fuel storable w) := by
  have key : ∀ wh : Option Wh,
      Option.map (fun x => (x.1, x.2.elems))
          (fetchAllBody { drv with size := size2 } pte wh fuel storable w)
        = Option.map (fun x => (x.1, x.2.elems)) (fetchAllBody drv pte wh fuel storable w) := by
    intro wh
    simp only [fetchAllBody]
    rw [fetchAllLoop_congr drv { drv with size := size2 } rfl]
    apply fetchAllLoop_elems
    split <;> split <;> rfl
  refine ⟨key none, key (some whereClause), ?_⟩
  rw [fetchAll_eq_fetchAllBody]
  cases hres : fetchAllBody drv pte none fuel storable w with
  | none => rfl
  | some res =>
    simp only [Option.map_some', Option.some.injEq]
    simp only [fetchAllBody] at hres
    split
    · rename_i hs
      rw [if_neg (by simpa using hs)] at hres
      have := fetchAllLoop_capacity drv pte storable _ fuel _ _ _ res
        (by simp [MetaArray.empty]) hres
      simpa [MetaArray.empty] using this.2
    · rename_i hs
      rw [if_pos (by simpa using hs)] at hres
      have := fetchAllLoop_capacity drv pte storable _ fuel _ _ _ res
        (by simp [MetaArray.empty, MetaArray.reserve]) hres
      simpa [MetaArray.empty, MetaArray.reserve] using this.2

/-! ### The constraint accessors -/

/-- C11. `numConstraints()` is the length of the registered constraint list, and
`getConstraint(i)`, on the bounds-checked subscript of the container, returns the
`i`-th registered constraint for every `i < numConstraints()` and reports an
out-of-range error, not a constraint, for every other `i`. -/
theorem getConstraint_bounds_checked (ms_constraints : List SqlConstraintBase) (i : Nat) :
    Storable.numConstraints ms_constraints = ms_constraints.length
      ∧ Storable.getConstraint arraySubscript ms_constraints i
        = if h : i < Storable.numConstraints ms_constraints
          then Except.ok (ms_constraints.get ⟨i, h⟩)
          else Except.error ArrayError.outOfRange := by
  refine ⟨rfl, ?_⟩
  simp only [Storable.getConstraint, arraySubscript, Storable.numConstraints]
  by_cases h : i < ms_constraints.length
  · rw [dif_pos h, List.getElem?_eq_getElem h]
    rfl
  · rw [dif_neg h, List.getElem?_eq_none (by omega)]

/-! ### The id-scoped operations without a primary key -/

lemma find_isPrimaryKey_none {cs : List SqlConstraintBase}
    (h : ∀ c ∈ cs, c.type ≠ SqlConstraintType.SqlConstraintTypePrimaryKey) :
    cs.find? isPrimaryKey = none := by
  simp only [List.find?_eq_none, isPrimaryKey, decide_eq_true_eq]
  exact h

lemma primaryKey_none {TObj : Type} (cs : List SqlConstraintBase) (self : Storable TObj)
    (hno : ∀ c ∈ cs, c.type ≠ SqlConstraintType.SqlConstraintTypePrimaryKey)
    (hpk : self.m_pkey = none) :
    (self.primaryKey cs).result = none := by
  simp [Storable.primaryKey, hpk, primaryKeyLoop_result, find_isPrimaryKey_none hno]

lemma oneShot_none {τ TObj : Type} (kind : OneShotKind)
    (execStatement : τ → OneShotStatement TObj → Bool × τ)
    (cs : List SqlConstraintBase) (self : Storable TObj) (tx : τ)
    (hno : ∀ c ∈ cs, c.type ≠ SqlConstraintType.SqlConstraintTypePrimaryKey)
    (hpk : self.m_pkey = none) :
    (oneShot kind execStatement cs self tx).outcome
        = Except.error StorableError.NoPrimaryKeyDeclared
      ∧ (oneShot kind execStatement cs self tx).executed = []
      ∧ (oneShot kind execStatement cs self tx).tx = tx := by
  have h := primaryKey_none cs self hno hpk
  simp [oneShot, SqlStorable.whereId, h]

/-- C12. For a type whose constraint list has no PrimaryKey constraint (an instance of
it never has a cached key), `whereId()` raises NoPrimaryKeyDeclared, and so do
`updateOne` and `removeOne`, which then hand no statement to the transaction and
leave the driver state as it was. -/
theorem id_scoped_raise_without_primary_key {τ TObj : Type}
    (execStatement : τ → OneShotStatement TObj → Bool × τ)
    (ms_constraints : List SqlConstraintBase) (self : Storable TObj) (tx : τ)
    (hno : ∀ c ∈ ms_constraints, c.type ≠ SqlConstraintType.SqlConstraintTypePrimaryKey)
    (hpk : self.m_pkey = none) :
    (SqlStorable.whereId ms_constraints self).1
        = Except.error StorableError.NoPrimaryKeyDeclared
      ∧ (SqlStorable.updateOne execStatement ms_constraints self tx).outcome
        = Except.error StorableError.NoPrimaryKeyDeclared
      ∧ (SqlStorable.updateOne execStatement ms_constraints self tx).executed = []
      ∧ (SqlStorable.updateOne execStatement ms_constraints self tx).tx = tx
      ∧ (SqlStorable.removeOne execStatement ms_constraints self tx).outcome
        = Except.error StorableError.NoPrimaryKeyDeclared
      ∧ (SqlStorable.removeOne execStatement ms_constraints self tx).executed = []
      ∧ (SqlStorable.removeOne execStatement ms_constraints self tx).tx = tx := by
  have hu := oneShot_none OneShotKind.update execStatement ms_constraints self tx hno hpk
  have hr := oneShot_none OneShotKind.remove execStatement ms_constraints self tx hno hpk
  refine ⟨?_, hu.1, hu.2.1, hu.2.2, hr.1, hr.2.1, hr.2.2⟩
  simp [SqlStorable.whereId, primaryKey_none ms_constraints self hno hpk]

/-- Witness of C12: a type with one Unique constraint, a fresh instance, a transaction
that would accept any statement. -/
theorem id_scoped_raise_without_primary_key_witness :
    (SqlStorable.updateOne (fun (t : Nat) (_ : OneShotStatement Nat) => (true, t + 1))
        [{ type := SqlConstraintType.SqlConstraintTypeUnique, metaField := { name := "a" } }]
        (Storable.new 7) 0).outcome
      = Except.error StorableError.NoPrimaryKeyDeclared :=
  (id_scoped_raise_without_primary_key (fun (t : Nat) (_ : OneShotStatement Nat) => (true, t + 1))
    [{ type := SqlConstraintType.SqlConstraintTypeUnique, metaField := { name := "a" } }]
    (Storable.new 7) 0 (by decide) rfl).2.1

lemma oneShot_filtered {τ TObj : Type} (kind : OneShotKind)
    (execStatement : τ → OneShotStatement TObj → Bool × τ)
    (cs : List SqlConstraintBase) (self : Storable TObj) (tx : τ) :
    ∀ statement ∈ (oneShot kind execStatement cs self tx).executed,
      statement.filter.isSome = true := by
  intro statement hs
  simp only [oneShot, SqlStorable.whereId] at hs
  split at hs
  · rename_i heq
    simp at hs
  · rename_i heq
    simp only [List.mem_singleton] at hs
    subst hs
    rfl

/-! ### Aliasing of the shared storable -/

lemma store_store {β : Type} (m : Nat → β) (a : Nat) (v v2 : β) :
    store (store m a v) a v2 = store m a v2 := by
  funext x
  simp only [store]
  split <;> rfl

lemma store_self {β : Type} (m : Nat → β) (a : Nat) : store m a (m a) = m := by
  funext x
  simp only [store]
  split
  · rename_i h; rw [h]
  · rfl

lemma operator_inc_frame {τ TObj Wh : Type} (drv : SqlBackend τ TObj Wh) (pte : Int)
    (w : World τ TObj) (it : SqlResultIterator) :
    (it.operator_inc drv pte w).1.sets = w.sets
      ∧ (it.operator_inc drv pte w).2.m_resultSet = it.m_resultSet
      ∧ (it.operator_inc drv pte w).1.storables
          = store w.storables (w.sets it.m_resultSet).m_storable
              (drv.fetchNext w.tx (w.sets it.m_resultSet).m_statement
                (w.storables (w.sets it.m_resultSet).m_storable)).2.2 := by
  simp only [SqlResultIterator.operator_inc, SqlResultIterator.fetchNext]
  split <;> exact ⟨rfl, rfl, rfl⟩

lemma advance_frame {τ TObj Wh : Type} (drv : SqlBackend τ TObj Wh) (pte : Int) (n : Nat) :
    ∀ (w : World τ TObj) (it : SqlResultIterator),
      (advance drv pte n (w, it)).1.sets = w.sets
        ∧ (advance drv pte n (w, it)).2.m_resultSet = it.m_resultSet
        ∧ ∃ v, (advance drv pte n (w, it)).1.storables
            = store w.storables (w.sets it.m_resultSet).m_storable v := by
  induction n with
  | zero =>
    intro w it
    exact ⟨rfl, rfl, w.storables (w.sets it.m_resultSet).m_storable, (store_self _ _).symm⟩
  | succ n ih =>
    intro w it
    obtain ⟨f1, f2, f3⟩ := operator_inc_frame drv pte w it
    obtain ⟨g1, g2, v, g3⟩ := ih (it.operator_inc drv pte w).1 (it.operator_inc drv pte w).2
    simp only [advance]
    refine ⟨g1.trans f1, g2.trans f2, v, ?_⟩
    rw [g3, f1, f2, f3, store_store]

/-- C13. Dereferencing does not depend on the rowId: two iterators on the same result
set, whatever their rowIds, get from `operator*` and from `operator->` the same
handle, the one of the result set's shared storable. After any number of
advances of one of them the handle is still that one, no result-set data has
changed, and the storables differ from before at most in the contents held at
that handle. -/
theorem deref_aliases_shared_storable {τ TObj Wh : Type} (drv : SqlBackend τ TObj Wh)
    (pte : Int) (w : World τ TObj) (rs : Nat) (rowId1 rowId2 : Int) (n : Nat) :
    (SqlResultIterator.new rs rowId1).operator_deref w = Except.ok (w.sets rs).m_storable
      ∧ (SqlResultIterator.new rs rowId2).operator_deref w
          = (SqlResultIterator.new rs rowId1).operator_deref w
      ∧ (SqlResultIterator.new rs rowId1).operator_arrow w = Except.ok (w.sets rs).m_storable
      ∧ (SqlResultIterator.new rs rowId2).operator_arrow w
          = (SqlResultIterator.new rs rowId1).operator_arrow w
      ∧ (advance drv pte n (w, SqlResultIterator.new rs rowId1)).2.operator_deref
            (advance drv pte n (w, SqlResultIterator.new rs rowId1)).1
          = Except.ok (w.sets rs).m_storable
      ∧ (SqlResultIterator.new rs rowId2).operator_deref
            (advance drv pte n (w, SqlResultIterator.new rs rowId1)).1
          = Except.ok (w.sets rs).m_storable
      ∧ (advance drv pte n (w, SqlResultIterator.new rs rowId1)).1.sets = w.sets
      ∧ ∃ v, (advance drv pte n (w, SqlResultIterator.new rs rowId1)).1.storables
          = store w.storables (w.sets rs).m_storable v := by
  obtain ⟨h1, h2, h3⟩ := advance_frame drv pte n w (SqlResultIterator.new rs rowId1)
  refine ⟨rfl, rfl, rfl, rfl, ?_, ?_, h1, h3⟩
  · simp only [SqlResultIterator.operator_deref]
    rw [h1, h2]
    rfl
  · simp only [SqlResultIterator.operator_deref]
    rw [h1]
    rfl

/-! ### Caching of the primary key -/

lemma primaryKeyLoop_none {TObj : Type} (self : Storable TObj) (cs : List SqlConstraintBase)
    (hno : ∀ c ∈ cs, c.type ≠ SqlConstraintType.SqlConstraintTypePrimaryKey) :
    ∀ n, primaryKeyLoop self cs n
      = { result := none, self := self, inspected := n + cs.length } := by
  induction cs with
  | nil => intro n; rfl
  | cons c rest ih =>
    intro n
    have hc : c.type ≠ SqlConstraintType.SqlConstraintTypePrimaryKey :=
      hno c (List.mem_cons_self _ _)
    have hrest := ih (fun d hd => hno d (List.mem_cons_of_mem _ hd)) (n + 1)
    simp only [primaryKeyLoop, hc, if_false, hrest, List.length_cons]
    congr 1
    omega

lemma primaryKeyInspections_none {TObj : Type} (cs : List SqlConstraintBase)
    (hno : ∀ c ∈ cs, c.type ≠ SqlConstraintType.SqlConstraintTypePrimaryKey) (n : Nat) :
    ∀ self : Storable TObj, self.m_pkey = none →
      primaryKeyInspections cs n self = List.replicate n cs.length
        ∧ primaryKeyCalls cs n self = List.replicate n none := by
  induction n with
  | zero => intro self _; exact ⟨rfl, rfl⟩
  | succ n ih =>
    intro self hpk
    have h1 : self.primaryKey cs = { result := none, self := self, inspected := cs.length } := by
      simp [Storable.primaryKey, hpk, primaryKeyLoop_none self cs hno]
    obtain ⟨i1, i2⟩ := ih self hpk
    simp [primaryKeyInspections, primaryKeyCalls, h1, i1, i2, List.replicate_succ]

lemma primaryKeyInspections_cached {TObj : Type} (cs : List SqlConstraintBase)
    (f : MetaFieldBase) (n : Nat) (self : Storable TObj) (h : self.m_pkey = some f) :
    primaryKeyInspections cs n self = List.replicate n 0 := by
  induction n with
  | zero => rfl
  | succ n ih =>
    have h1 : self.primaryKey cs = { result := some f, self := self, inspected := 0 } := by
      simp [Storable.primaryKey, h]
    simp [primaryKeyInspections, h1, ih, List.replicate_succ]

/-- C14, as stated, fails on a list without a PrimaryKey constraint: with the single
constraint Unique(a), the first call on a fresh instance returns null and caches
nothing, and the second call inspects the one entry of the list again. -/
theorem primaryKey_rescans_without_primary_key :
    ((Storable.new ()).primaryKey
        [{ type := SqlConstraintType.SqlConstraintTypeUnique,
           metaField := { name := "a" } }]).self.m_pkey = none
      ∧ (((Storable.new ()).primaryKey
            [{ type := SqlConstraintType.SqlConstraintTypeUnique,
               metaField := { name := "a" } }]).self.primaryKey
          [{ type := SqlConstraintType.SqlConstraintTypeUnique,
             metaField := { name := "a" } }]).inspected = 1 := by
  decide

/-- C14, amended. On a fresh instance, the first call of `primaryKey()` caches the field of
the first PrimaryKey constraint when the list has one, and every later call
returns it with no entry inspected; when the list has none, nothing is cached
and every later call inspects every entry of the list again. In both cases each
later call returns what the first call returned. -/
theorem primaryKey_caches_found_key {TObj : Type} (ms_constraints : List SqlConstraintBase)
    (obj : TObj) (n : Nat) :
    ((Storable.new obj).primaryKey ms_constraints).self.m_pkey
        = (ms_constraints.find? isPrimaryKey).map (fun c => c.metaField)
      ∧ (primaryKeyInspections ms_constraints (n + 1) (Storable.new obj)).tail
        = List.replicate n (if ms_constraints.any isPrimaryKey then 0 else ms_constraints.length)
      ∧ primaryKeyCalls ms_constraints (n + 1) (Storable.new obj)
        = List.replicate (n + 1) ((ms_constraints.find? isPrimaryKey).map (fun c => c.metaField)) := by
  by_cases hany : ms_constraints.any isPrimaryKey = true
  · have hres := primaryKeyLoop_result (Storable.new obj) ms_constraints 0
    obtain ⟨c, hc⟩ : ∃ c, ms_constraints.find? isPrimaryKey = some c := by
      cases hf : ms_constraints.find? isPrimaryKey with
      | none =>
        rw [List.find?_eq_none] at hf
        rw [List.any_eq_true] at hany
        obtain ⟨x, hx, hp⟩ := hany
        exact absurd hp (hf x hx)
      | some c => exact ⟨c, rfl⟩
    rw [hc] at hres
    have hself : ((Storable.new obj).primaryKey ms_constraints).self.m_pkey
        = some c.metaField := by
      have h3 := primaryKeyLoop_self (Storable.new obj) ms_constraints 0
      simp only [Storable.primaryKey, Storable.new] at hres ⊢
      simp only [Storable.new] at h3
      rcases h3 with h1 | h1
      · rw [h1, hres]; rfl
      · rw [h1.1] at hres; cases hres
    have hr : ((Storable.new obj).primaryKey ms_constraints).result = some c.metaField := by
      simpa [Storable.primaryKey, Storable.new] using hres
    refine ⟨by rw [hself, hc]; rfl, ?_, ?_⟩
    · simp [primaryKeyInspections, hany,
        primaryKeyInspections_cached ms_constraints c.metaField n _ hself]
    · simp [primaryKeyCalls, hr, hc, List.replicate_succ,
        primaryKeyCalls_cached ms_constraints c.metaField n _ hself]
  · have hno : ∀ c ∈ ms_constraints,
        c.type ≠ SqlConstraintType.SqlConstraintTypePrimaryKey := by
      intro c hc hpk
      apply hany
      rw [List.any_eq_true]
      exact ⟨c, hc, by simp [isPrimaryKey, hpk]⟩
    have h1 : (Storable.new obj).primaryKey ms_constraints
        = { result := none, self := Storable.new obj, inspected := ms_constraints.length } := by
      have h0 := primaryKeyLoop_none (Storable.new obj) ms_constraints hno 0
      simp only [Nat.zero_add] at h0
      simpa [Storable.primaryKey, Storable.new] using h0
    obtain ⟨i1, i2⟩ := primaryKeyInspections_none ms_constraints hno n (Storable.new obj) rfl
    refine ⟨by rw [h1, find_isPrimaryKey_none hno]; rfl, ?_, ?_⟩
    · simp [primaryKeyInspections, h1, i1, hany]
    · simp [primaryKeyCalls, h1, i2, find_isPrimaryKey_none hno, List.replicate_succ]

/-! ### The rowId as a 32-bit int -/

lemma wrapInt_of_int {x : Int} (h1 : INT_MIN ≤ x) (h2 : x ≤ INT_MAX) : wrapInt x = x := by
  simp only [wrapInt, INT_MIN, INT_MAX] at *
  omega

lemma wrapInt_add (x y : Int) : wrapInt (wrapInt x + y) = wrapInt (x + y) := by
  simp only [wrapInt]
  omega

lemma operator_inc_int_eq {τ TObj Wh : Type} (drv : SqlBackend τ TObj Wh) (pte : Int)
    (w : World τ TObj) (it : SqlResultIterator)
    (h : (SqlResultIterator.fetchNext drv it w).1 = false
      ∨ (INT_MIN ≤ it.m_rowId + 1 ∧ it.m_rowId + 1 ≤ INT_MAX)) :
    it.operator_inc_int drv pte w = it.operator_inc drv pte w := by
  simp only [SqlResultIterator.operator_inc_int, SqlResultIterator.operator_inc]
  rcases h with h | h
  · simp [h]
  · rw [wrapInt_of_int h.1 h.2]

lemma advance_succ_tail {τ TObj Wh : Type} (drv : SqlBackend τ TObj Wh) (pte : Int) (n : Nat) :
    ∀ s : World τ TObj × SqlResultIterator,
      advance drv pte (n + 1) s
        = SqlResultIterator.operator_inc drv pte (advance drv pte n s).2
            (advance drv pte n s).1 := by
  induction n with
  | zero => intro s; rfl
  | succ n ih => intro s; exact ih _

lemma advance_int_succ_tail {τ TObj Wh : Type} (drv : SqlBackend τ TObj Wh) (pte : Int)
    (n : Nat) :
    ∀ s : World τ TObj × SqlResultIterator,
      advance_int drv pte (n + 1) s
        = SqlResultIterator.operator_inc_int drv pte (advance_int drv pte n s).2
            (advance_int drv pte n s).1 := by
  induction n with
  | zero => intro s; rfl
  | succ n ih => intro s; exact ih _

/-- C4, as stated, fails at the largest rowId: in state ACTIVE(2147483647) with a fetch
that succeeds, the rowId after the advance is -2147483648, not 2147483648. -/
theorem operator_inc_int_overflows :
    (SqlResultIterator.fetchNext scriptBackend (SqlResultIterator.new 1 2147483647)
        (scriptWorld [true])).1 = true
      ∧ ((SqlResultIterator.new 1 2147483647).operator_inc_int scriptBackend (-1)
          (scriptWorld [true])).2.m_rowId = -2147483648 := by
  decide

/-- C4, amended. Advancing an iterator in state ACTIVE(n) with `n` below the largest `int`
makes exactly one call of the driver's `fetchNext`, on the statement and the
shared storable of its result set (one entry more in the log, the driver state
and the storable as that call left them, no result-set data changed); the
iterator still references the same result set, and its rowId is `n + 1` when the
fetch succeeded and the sentinel when it failed. -/
theorem operator_inc_int_active {τ TObj Wh : Type} (drv : SqlBackend τ TObj Wh) (pte : Int)
    (w : World τ TObj) (rs : Nat) (n : Nat) (hn : (n : Int) < INT_MAX) :
    ((SqlResultIterator.new rs n).operator_inc_int drv pte w).1.calls
        = w.calls ++ [DriverCall.fetchNext (w.sets rs).m_statement (w.sets rs).m_storable]
      ∧ ((SqlResultIterator.new rs n).operator_inc_int drv pte w).1.tx
        = (drv.fetchNext w.tx (w.sets rs).m_statement
            (w.storables (w.sets rs).m_storable)).2.1
      ∧ ((SqlResultIterator.new rs n).operator_inc_int drv pte w).1.storables
        = store w.storables (w.sets rs).m_storable
            (drv.fetchNext w.tx (w.sets rs).m_statement
              (w.storables (w.sets rs).m_storable)).2.2
      ∧ ((SqlResultIterator.new rs n).operator_inc_int drv pte w).1.sets = w.sets
      ∧ ((SqlResultIterator.new rs n).operator_inc_int drv pte w).2.m_resultSet = rs
      ∧ ((SqlResultIterator.new rs n).operator_inc_int drv pte w).2.m_rowId
        = if (drv.fetchNext w.tx (w.sets rs).m_statement
                (w.storables (w.sets rs).m_storable)).1 = true
          then (n : Int) + 1 else pte := by
  have hw : wrapInt ((n : Int) + 1) = (n : Int) + 1 :=
    wrapInt_of_int (by simp only [INT_MIN]; omega) (by simp only [INT_MAX] at hn ⊢; omega)
  simp only [SqlResultIterator.operator_inc_int, SqlResultIterator.fetchNext,
    SqlResultIterator.new, hw]
  split <;> simp_all

/-- Witness of C4, amended: ACTIVE(5) and a fetch that succeeds give rowId 6. -/
theorem operator_inc_int_active_witness :
    ((5 : Nat) : Int) < INT_MAX
      ∧ ((SqlResultIterator.new 1 (5 : Nat)).operator_inc_int scriptBackend (-1)
          (scriptWorld [true])).2.m_rowId = 6 :=
  ⟨by decide,
   (operator_inc_int_active scriptBackend (-1) (scriptWorld [true]) 1 5 (by decide)).2.2.2.2.2⟩

lemma operator_inc_int_of_succeeds {τ TObj Wh : Type} (drv : SqlBackend τ TObj Wh)
    (pte : Int) (w : World τ TObj) (rs : Nat) (r : Int) (k : Nat)
    (h : w.succeedsThenFails drv rs (k + 1) = true) :
    ((SqlResultIterator.new rs r).operator_inc_int drv pte w).2
        = SqlResultIterator.new rs (wrapInt (r + 1))
      ∧ ((SqlResultIterator.new rs r).operator_inc_int drv pte w).1.succeedsThenFails drv rs k
          = true := by
  simp only [World.succeedsThenFails, succeedsThenFails, Bool.and_eq_true] at h
  simp only [SqlResultIterator.operator_inc_int, SqlResultIterator.fetchNext,
    SqlResultIterator.new, World.succeedsThenFails, h.1, if_true, store_same]
  exact ⟨trivial, h.2⟩

lemma advance_int_of_succeeds {τ TObj Wh : Type} (drv : SqlBackend τ TObj Wh) (pte : Int)
    (rs : Nat) (j : Nat) :
    ∀ (k : Nat) (w : World τ TObj) (r : Int), w.succeedsThenFails drv rs (j + k) = true →
      INT_MIN ≤ r → r ≤ INT_MAX →
      (advance_int drv pte j (w, SqlResultIterator.new rs r)).2
          = SqlResultIterator.new rs (wrapInt (r + j))
        ∧ (advance_int drv pte j (w, SqlResultIterator.new rs r)).1.succeedsThenFails drv rs k
            = true := by
  induction j with
  | zero =>
    intro k w r h h1 h2
    refine ⟨?_, by simpa [advance_int] using h⟩
    simp only [advance_int, Nat.cast_zero, add_zero, wrapInt_of_int h1 h2]
  | succ j ih =>
    intro k w r h h1 h2
    have hs : w.succeedsThenFails drv rs ((j + k) + 1) = true := by
      rw [← h]; congr 1; omega
    obtain ⟨e1, e2⟩ := operator_inc_int_of_succeeds drv pte w rs r (j + k) hs
    have e3 : (SqlResultIterator.new rs r).operator_inc_int drv pte w
        = (((SqlResultIterator.new rs r).operator_inc_int drv pte w).1,
            SqlResultIterator.new rs (wrapInt (r + 1))) := by
      rw [← e1]
    have hr1 : INT_MIN ≤ wrapInt (r + 1) := by simp only [wrapInt, INT_MIN]; omega
    have hr2 : wrapInt (r + 1) ≤ INT_MAX := by simp only [wrapInt, INT_MAX]; omega
    have := ih k _ (wrapInt (r + 1)) e2 hr1 hr2
    simp only [advance_int]
    rw [e3]
    refine ⟨?_, this.2⟩
    rw [this.1, wrapInt_add]
    congr 2
    push_cast
    ring

lemma countdown_succeedsThenFails (statement : Nat) (k : Nat) :
    ∀ b : Nat, succeedsThenFails countdownBackend statement k k b = true := by
  induction k with
  | zero => intro b; rfl
  | succ k ih =>
    intro b
    simp only [succeedsThenFails, countdownBackend, countdownFetchNext, Nat.succ_ne_zero,
      if_false, Bool.true_and, Nat.add_sub_cancel]
    exact ih b

lemma advance_int_countdown (pte : Int) (j : Nat) :
    (advance_int countdownBackend pte j (countdownWorld j, SqlResultIterator.new 1 0)).2
      = SqlResultIterator.new 1 (wrapInt j) := by
  have h := advance_int_of_succeeds countdownBackend pte 1 j 0 (countdownWorld j) 0
    (countdown_succeedsThenFails 2 j 0) (by decide) (by decide)
  simpa using h.1

lemma advance_int_eq_advance {τ TObj Wh : Type} (drv : SqlBackend τ TObj Wh) (pte : Int)
    (w : World τ TObj) (set : SqlResultSet) (k : Nat)
    (h : w.succeedsThenFails drv set.m_data k = true) (hk : (k : Int) ≤ INT_MAX) (j : Nat) :
    j ≤ k + 1 →
      advance_int drv pte j (w, SqlResultIterator.new set.m_data 0)
        = advance drv pte j (w, SqlResultIterator.new set.m_data 0) := by
  induction j with
  | zero => intro _; rfl
  | succ j ih =>
    intro hj
    have hjk : j ≤ k := by omega
    obtain ⟨e1, e2⟩ := (advance_ideal_to_past_the_end drv pte w set k h).1 j hjk
    rw [advance_int_succ_tail, advance_succ_tail, ih (by omega)]
    apply operator_inc_int_eq
    rcases Nat.lt_or_ge j k with hlt | hge
    · right
      rw [e1]
      simp only [SqlResultIterator.new, INT_MIN, INT_MAX] at hk ⊢
      omega
    · left
      rw [e2]
      simp only [decide_eq_false_iff_not]
      omega

/-- C5, as stated, fails when the rows outnumber the `int` range: with a driver that
succeeds 2147483648 times and then fails, the iterator after 2147483648 advances
from ACTIVE(0) has rowId -2147483648, so the rowId 2147483648 is not passed
through. -/
theorem advance_int_overflows_before_the_end :
    (countdownWorld 2147483648).succeedsThenFails countdownBackend 1 2147483648 = true
      ∧ (advance_int countdownBackend (-1) 2147483648
            (countdownWorld 2147483648, SqlResultIterator.new 1 0)).2
          = SqlResultIterator.new 1 (-2147483648) := by
  refine ⟨countdown_succeedsThenFails 2 2147483648 0, ?_⟩
  rw [advance_int_countdown]
  decide

/-- C5, amended. If the driver's `fetchNext` for a result set succeeds `k` times and then
fails, with `k` at most the largest `int`, then advancing from the initial
iterator ACTIVE(0): after `j` advances, for every `j` up to `k`, the iterator is
ACTIVE(j) (the rowIds 0, 1, ..., k are passed through) and the fetch of the next
advance succeeds exactly when `j < k`; after `k + 1` advances the iterator
compares equal to the PAST_THE_END sentinel of the result set; and with a
negative sentinel no iterator before that compares equal to it. -/
theorem advance_int_to_past_the_end {τ TObj Wh : Type} (drv : SqlBackend τ TObj Wh)
    (pte : Int) (w : World τ TObj) (set : SqlResultSet) (k : Nat)
    (h : w.succeedsThenFails drv set.m_data k = true) (hk : (k : Int) ≤ INT_MAX) :
    (∀ j, j ≤ k →
        (advance_int drv pte j (w, SqlResultIterator.new set.m_data 0)).2
            = SqlResultIterator.new set.m_data j
          ∧ (SqlResultIterator.fetchNext drv
                (advance_int drv pte j (w, SqlResultIterator.new set.m_data 0)).2
                (advance_int drv pte j (w, SqlResultIterator.new set.m_data 0)).1).1
              = decide (j < k))
      ∧ (advance_int drv pte (k + 1) (w, SqlResultIterator.new set.m_data 0)).2.operator_eq
          (set.end_ pte) = true
      ∧ (pte < 0 → ∀ j, j ≤ k →
          (advance_int drv pte j (w, SqlResultIterator.new set.m_data 0)).2.operator_ne
            (set.end_ pte) = true) := by
  obtain ⟨a1, a2, a3⟩ := advance_ideal_to_past_the_end drv pte w set k h
  have heq := advance_int_eq_advance drv pte w set k h hk
  refine ⟨?_, ?_, ?_⟩
  · intro j hj
    rw [heq j (by omega)]
    exact a1 j hj
  · rw [heq (k + 1) (le_refl _)]
    exact a2
  · intro hp j hj
    rw [heq j (by omega)]
    exact a3 hp j hj

/-- Witness of C5, amended: a cursor with two rows left to deliver (`k = 2`), sentinel -1. -/
theorem advance_int_to_past_the_end_witness :
    (memWorld [] [5, 6]).succeedsThenFails memBackend 1 2 = true
      ∧ ((2 : Nat) : Int) ≤ INT_MAX
      ∧ (advance_int memBackend (-1) 3
            (memWorld [] [5, 6], SqlResultIterator.new 1 0)).2.operator_eq
          (SqlResultSet.end_ (-1) { m_data := 1 }) = true :=
  ⟨by decide, by decide,
   (advance_int_to_past_the_end memBackend (-1) (memWorld [] [5, 6])
      { m_data := 1 } 2 (by decide) (by decide)).2.1⟩

/-! ### The states of the iterator -/

/-- C15, as stated, fails once the rows outnumber the `int` range: with the sentinel -1 and
a driver whose fetch keeps succeeding, the iterator reached from ACTIVE(0) by
2147483648 advances has the rowId -2147483648, which is neither a non-negative
index nor the sentinel. -/
theorem rowId_overflows_to_negative :
    (advance_int countdownBackend (-1) 2147483648
        (countdownWorld 2147483648, SqlResultIterator.new 1 0)).2.m_rowId = -2147483648
      ∧ ¬ (0 ≤ (advance_int countdownBackend (-1) 2147483648
              (countdownWorld 2147483648, SqlResultIterator.new 1 0)).2.m_rowId
          ∨ (advance_int countdownBackend (-1) 2147483648
              (countdownWorld 2147483648, SqlResultIterator.new 1 0)).2.m_rowId = -1) := by
  rw [advance_int_countdown]
  decide

/-- Whatever `int` the sentinel is, some iterator reached from ACTIVE(0) has a rowId that
is neither a non-negative index nor the sentinel. -/
lemma rowId_invariant_fails_for_every_sentinel (pte : Int) :
    ∃ n w, ¬ (0 ≤ (advance_int countdownBackend pte n (w, SqlResultIterator.new 1 0)).2.m_rowId
      ∨ (advance_int countdownBackend pte n (w, SqlResultIterator.new 1 0)).2.m_rowId = pte) := by
  by_cases hp : pte = -2147483648
  · refine ⟨2147483649, countdownWorld 2147483649, ?_⟩
    rw [advance_int_countdown, hp]
    decide
  · refine ⟨2147483648, countdownWorld 2147483648, ?_⟩
    rw [advance_int_countdown]
    have : wrapInt ((2147483648 : Nat) : Int) = -2147483648 := by decide
    simp only [SqlResultIterator.new, this]
    omega

/-- With a sentinel below -1 the overflow is not needed: with the sentinel -2, a failed
fetch followed by a successful one leads from ACTIVE(0) to the rowId -1. -/
lemma rowId_below_minus_one_sentinel :
    (advance_int scriptBackend (-2) 2
        (scriptWorld [false, true], SqlResultIterator.new 1 0)).2.m_rowId = -1 := by
  decide

lemma advance_int_rowId_invariant {τ TObj Wh : Type} (drv : SqlBackend τ TObj Wh)
    (pte : Int) (hlo : INT_MIN ≤ pte) (n : Nat) :
    ∀ (w : World τ TObj) (it : SqlResultIterator),
      (0 ≤ it.m_rowId ∨ pte ≤ it.m_rowId) →
      it.m_rowId + n ≤ INT_MAX → pte + n ≤ INT_MAX →
      (0 ≤ (advance_int drv pte n (w, it)).2.m_rowId
        ∨ pte ≤ (advance_int drv pte n (w, it)).2.m_rowId) := by
  induction n with
  | zero => intro w it h _ _; exact h
  | succ n ih =>
    intro w it h h1 h2
    simp only [advance_int]
    have hstep : (it.operator_inc_int drv pte w).2.m_rowId = it.m_rowId + 1
        ∨ (it.operator_inc_int drv pte w).2.m_rowId = pte := by
      simp only [SqlResultIterator.operator_inc_int]
      split
      · left
        exact wrapInt_of_int (by simp only [INT_MIN] at hlo ⊢; omega)
          (by push_cast at h1; omega)
      · right; rfl
    refine ih (it.operator_inc_int drv pte w).1 (it.operator_inc_int drv pte w).2 ?_ ?_ ?_
    · rcases hstep with e | e <;> rw [e] <;> omega
    · push_cast at h1 h2
      rcases hstep with e | e <;> rw [e] <;> omega
    · push_cast at h2; omega

/-- C15, amended. Within the `int` range (the sentinel is an `int`, and neither the number
`n` of advances nor the sentinel plus `n` exceeds the largest `int`), every
iterator reached from ACTIVE(0) by `n` advances, over any driver and so under any
sequence of fetch outcomes, has a rowId that is a non-negative index, or the
sentinel, or above the sentinel by successful fetches made after the end. When
the sentinel is not below -1 the last case is again a non-negative index: the
rowId is then a non-negative index or the sentinel. -/
theorem rowId_int_invariant {τ TObj Wh : Type} (drv : SqlBackend τ TObj Wh) (pte : Int)
    (w : World τ TObj) (rs : Nat) (n : Nat) (hlo : INT_MIN ≤ pte)
    (hn : (n : Int) ≤ INT_MAX) (hhi : pte + n ≤ INT_MAX) :
    (0 ≤ (advance_int drv pte n (w, SqlResultIterator.new rs 0)).2.m_rowId
        ∨ (advance_int drv pte n (w, SqlResultIterator.new rs 0)).2.m_rowId = pte
        ∨ pte < (advance_int drv pte n (w, SqlResultIterator.new rs 0)).2.m_rowId)
      ∧ (-1 ≤ pte →
          (0 ≤ (advance_int drv pte n (w, SqlResultIterator.new rs 0)).2.m_rowId
            ∨ (advance_int drv pte n (w, SqlResultIterator.new rs 0)).2.m_rowId = pte)) := by
  have h := advance_int_rowId_invariant drv pte hlo n w (SqlResultIterator.new rs 0)
    (Or.inl (le_refl _)) (by simpa [SqlResultIterator.new] using hn) hhi
  constructor
  · omega
  · intro hp
    omega

/-- Witness of C15, amended: sentinel -1, the fetch outcomes success, failure, success,
three advances. -/
theorem rowId_int_invariant_witness :
    INT_MIN ≤ (-1 : Int) ∧ ((3 : Nat) : Int) ≤ INT_MAX ∧ (-1 : Int) + (3 : Nat) ≤ INT_MAX
      ∧ (0 ≤ (advance_int scriptBackend (-1) 3
              (scriptWorld [true, false, true], SqlResultIterator.new 1 0)).2.m_rowId
          ∨ (advance_int scriptBackend (-1) 3
              (scriptWorld [true, false, true], SqlResultIterator.new 1 0)).2.m_rowId = -1) :=
  ⟨by decide, by decide, by decide,
   (rowId_int_invariant scriptBackend (-1) (scriptWorld [true, false, true]) 1 3
      (by decide) (by decide) (by decide)).2 (by decide)⟩

/-- C16. Advancing the PAST_THE_END iterator of a result set still makes one call of the
driver's `fetchNext` on the statement and storable of that result set. The
rowId afterwards is the sentinel exactly when that fetch failed; when it
succeeded the rowId is the sentinel plus one, and the iterator compares equal
to the end sentinel exactly when the fetch failed. -/
theorem operator_inc_past_the_end {τ TObj Wh : Type} (drv : SqlBackend τ TObj Wh) (pte : Int)
    (w : World τ TObj) (set : SqlResultSet) :
    ((set.end_ pte).operator_inc drv pte w).1.calls
        = w.calls ++ [DriverCall.fetchNext (w.sets set.m_data).m_statement
            (w.sets set.m_data).m_storable]
      ∧ (((set.end_ pte).operator_inc drv pte w).2.m_rowId = pte
          ↔ (drv.fetchNext w.tx (w.sets set.m_data).m_statement
              (w.storables (w.sets set.m_data).m_storable)).1 = false)
      ∧ ((set.end_ pte).operator_inc drv pte w).2.m_rowId
          = (if (drv.fetchNext w.tx (w.sets set.m_data).m_statement
                (w.storables (w.sets set.m_data).m_storable)).1 = true
             then pte + 1 else pte)
      ∧ ((set.end_ pte).operator_inc drv pte w).2.operator_eq (set.end_ pte)
          = !(drv.fetchNext w.tx (w.sets set.m_data).m_statement
              (w.storables (w.sets set.m_data).m_storable)).1 := by
  simp only [SqlResultIterator.operator_inc, SqlResultIterator.fetchNext,
    SqlResultSet.end_, SqlResultIterator.new, SqlResultIterator.operator_eq]
  cases hf : (drv.fetchNext w.tx (w.sets set.m_data).m_statement
      (w.storables (w.sets set.m_data).m_storable)).1 <;> simp

end Metacpp
